import Mathlib

/-!
# File drop-off service: `src/supabase.js`

A shallow embedding of the three functions of `src/supabase.js`
(`generateCode`, `uploadFile`, `getFile`) together with an in-memory model of
the two external collaborators (object storage and the `files` table), and
the properties of the natural-language specification checked against it.

Conventions
* a JavaScript string is a list of characters (`Str`);
* an instant is a number of milliseconds since the epoch (`Nat`);
* a value handed to `console.error` is a `Value`: one it prints, or one whose
  formatting throws;
* an `async` function run is a `Run`: how it completed, the state of the two
  stores afterwards, and the collaborator calls it issued, in order.
-/

set_option autoImplicit false
set_option maxRecDepth 100000

namespace Supabase

/-! ## Strings -/

/-- A JavaScript string, as its sequence of characters. -/
abbrev Str := List Char

/-- The digit characters of `Number.prototype.toString(36)`: `0-9` then `a-z`. -/
def digitChar (d : Nat) : Char :=
  if d < 10 then Char.ofNat (48 + d) else Char.ofNat (87 + d)

/-- The method `String.prototype.toUpperCase`, on the characters that occur
here (ASCII). -/
def toUpperCase (s : Str) : Str := s.map Char.toUpper

/-- The method `String.prototype.substr(start, length)`. -/
def substr (s : Str) (start length : Nat) : Str := (s.drop start).take length

/-- The method `String.prototype.split(sep)` for a one-character separator: the list of
segments, never empty (`"".split("/")` is `[""]`). -/
def split (sep : Char) : Str → List Str
  | [] => [[]]
  | c :: cs =>
    if c = sep then [] :: split sep cs
    else
      match split sep cs with
      | [] => [[c]]
      | seg :: rest => (c :: seg) :: rest

/-- The method `Array.prototype.pop()` as used on the result of `split`: its last element
(`undefined`, here `none`, on an empty array). -/
def pop (xs : List Str) : Option Str := xs.getLast?

/-! ## The random source and `generateCode` (lines 9-12)

`Number.prototype.toString(36)` leaves the digits of a fraction to the engine.
The model follows the conversion of V8 (Node, Chrome): digits are produced
while the remainder is not below half the distance to the next double, every
product and sum being rounded to a double, and the last digit is rounded up
when the remainder says so. Doubles are counted in units of `2 ^ -106`, so
that every double the conversion meets is a natural number. -/

/-- A value of `Math.random()`: the double `num / 2 ^ exp`. -/
structure Draw where
  num : Nat
  exp : Nat
deriving DecidableEq, Repr

/-- The draw is a double of `[0, 1)`, and it is zero or at least `2 ^ -53`:
the engines draw 52 or 53 random bits. -/
def Draw.valid (d : Draw) : Prop :=
  d.num < 2 ^ d.exp ∧ d.num < 2 ^ 53 ∧
    (d.num = 0 ∨ (d.exp ≤ 106 ∧ 2 ^ 53 ≤ d.num * 2 ^ (106 - d.exp)))

instance (d : Draw) : Decidable d.valid := by unfold Draw.valid; infer_instance

/-- The number one, in units of `2 ^ -106`. -/
def one : Nat := 2 ^ 106

/-- The number of binary digits of `n`, for `n` below `2 ^ fuel`. -/
def bitLength : Nat → Nat → Nat
  | 0, _ => 0
  | fuel + 1, n => if n = 0 then 0 else bitLength fuel (n / 2) + 1

/-- Rounding to the nearest double, ties to even, as every floating-point
product and sum does: 53 significant bits are kept. -/
def roundDouble (n : Nat) : Nat :=
  let bits := bitLength 128 n
  if bits ≤ 53 then n
  else
    let shift := bits - 53
    let q := n / 2 ^ shift
    let r := n % 2 ^ shift
    let half := 2 ^ (shift - 1)
    if r > half ∨ (r = half ∧ q % 2 = 1) then (q + 1) * 2 ^ shift else q * 2 ^ shift

/-- Half the distance from a double to the next one, the `delta` of the
conversion: `0.5 * (Double(value).NextDouble() - value)`. -/
def initialDelta (value : Nat) : Nat := 2 ^ (bitLength 128 value - 54)

/-- The carry of a rounded-up last digit through the digits written so far
(latest first): trailing `z` digits are dropped and the digit before them is
incremented; `none` when the carry reaches the integer part. -/
def carry : List Nat → Option (List Nat)
  | [] => none
  | d :: ds => if d + 1 < 36 then some ((d + 1) :: ds) else carry ds

/-- The digit loop of the conversion: the fraction digits, latest first, or
`none` when rounding carries into the integer part. `fuel` bounds the number
of digits by the size of the engine's buffer. -/
def fractionLoop : Nat → Nat → Nat → List Nat → Option (List Nat)
  | 0, _, _, acc => some acc
  | fuel + 1, fraction, delta, acc =>
    let shifted := roundDouble (fraction * 36)
    let delta1 := roundDouble (delta * 36)
    let digit := shifted / one
    let acc1 := digit :: acc
    let rest := shifted - digit * one
    if (rest > one / 2 ∨ (rest = one / 2 ∧ digit % 2 = 1)) ∧ roundDouble (rest + delta1) > one
    then carry acc1
    else if rest ≥ delta1 then fractionLoop fuel rest delta1 acc1
    else some acc1

/-- The string `Math.random().toString(36)`: `"0"` for the draw `0`, otherwise
`"0."` followed by the fraction digits of the conversion (`"1"` when rounding
carries into the integer part). -/
def toString36 (d : Draw) : Str :=
  let value := d.num * 2 ^ (106 - d.exp)
  if value < initialDelta value then ['0']
  else
    match fractionLoop 1100 value (initialDelta value) [] with
    | none => ['1']
    | some acc => '0' :: '.' :: acc.reverse.map digitChar

/-- Line 11: `'FV-' + Math.random().toString(36).substr(2, 6).toUpperCase()`. -/
def generateCode (random : Draw) : Str :=
  ['F', 'V', '-'] ++ toUpperCase (substr (toString36 random) 2 6)

/-- The pattern `FV-[A-Z0-9]{6}`. -/
def isCodeChar (c : Char) : Bool := c.isUpper || c.isDigit

/-- A string matches `FV-[A-Z0-9]{6}`. -/
def matchesPattern (s : Str) : Bool :=
  s.take 3 == ['F', 'V', '-'] && (s.drop 3).length == 6 && (s.drop 3).all isCodeChar

/-! ## Data model -/

/-- The caller's file: `name`, `size` and the raw content. -/
structure File where
  name : Str
  size : Nat
  content : List Nat
deriving DecidableEq, Repr

/-- A row of the `files` table. `url` is `none` when the column holds no
string (`null`); `expire_date` is the stored instant. -/
structure FileRecord where
  code : Str
  name : Str
  url : Option Str
  size : Nat
  expire_date : Nat
deriving DecidableEq, Repr

/-- The string `Date.prototype.toISOString` returns, identified with the
instant it denotes. -/
structure ISOString where
  instant : Nat
deriving DecidableEq, Repr

/-- The method `Date.prototype.toISOString`. -/
def toISOString (t : Nat) : ISOString := ⟨t⟩

/-- The descriptor `uploadFile` returns on success (lines 60-67). -/
structure UploadResult where
  code : Str
  name : Str
  url : Option Str
  size : Nat
  uploadDate : ISOString
  expireDate : ISOString
deriving DecidableEq, Repr

/-- The two stores behind the client: the objects of bucket `uploads` by key,
and the rows of table `files`. -/
structure World where
  objects : List (Str × File)
  files : List FileRecord
deriving DecidableEq, Repr

/-! ## Values seen by `console.error` -/

/-- A value handed to `console.error`, as far as logging is concerned: one
that is printed (`plain`: an `Error`, a record of data), or one whose
formatting throws the value `raised` (an object with a throwing getter or
inspection hook). -/
inductive Value where
  | plain
  | unprintable (raised : Value)
deriving DecidableEq, Repr

/-- The call `console.error(message, value)`: `none` when the value is
printed, `some raised` when formatting it throws `raised`. -/
def consoleError : Value → Option Value
  | .plain => none
  | .unprintable raised => some raised

/-- The value is printed by `console.error`. -/
def Value.printable : Value → Bool
  | .plain => true
  | .unprintable _ => false

/-- Logged inside a `try` block, the value is printed, or the value its
formatting throws is printed by the `catch` handler. -/
def Value.loggable : Value → Bool
  | .plain => true
  | .unprintable raised => raised.printable

/-! ## The collaborators

The storage and database client is not part of the repository. Each call is
modelled by what it does to the stores when it goes through, and a `Fault`
chosen by the environment makes it report an error or throw instead, leaving
the stores as they were. -/

/-- What the environment does to one collaborator call: nothing, or the call
reports the error `e`, or the call throws `e`. -/
inductive Fault where
  | none
  | error (e : Value)
  | throws (e : Value)
deriving DecidableEq, Repr

/-- What the environment does to the lookup: as `Fault`, or `noData`, a reply
carrying neither an error nor a row. -/
inductive LookupFault where
  | none
  | error (e : Value)
  | throws (e : Value)
  | noData
deriving DecidableEq, Repr

/-- How an awaited collaborator call comes back: `ok data` is a reply whose
`error` is falsy, `error e` a reply whose `error` is the truthy `e`,
`throws e` a rejection with `e`. -/
inductive Reply (α : Type) where
  | ok (data : α)
  | error (e : Value)
  | throws (e : Value)
deriving DecidableEq, Repr

/-- How `getPublicUrl` comes back: it throws, or returns an object whose
`publicUrl` property is absent, or one whose `publicUrl` is a string. -/
inductive UrlReply where
  | throws (e : Value)
  | undefined
  | url (u : Str)
deriving DecidableEq, Repr

/-- The value the destructuring `const { publicUrl } = ...` binds. -/
def UrlReply.value : UrlReply → Option Str
  | .url u => some u
  | _ => none

/-- A collaborator call, as issued by the code. -/
inductive Call where
  | storageUpload (key : Str) (file : File)
  | getPublicUrl (key : Str)
  | insert (record : FileRecord)
  | storageRemove (keys : List (Option Str))
  | select (code : Str)
  | delete (code : Str)
deriving DecidableEq, Repr

/-- An object is stored under `key`. -/
def World.hasObject (w : World) (key : Str) : Bool :=
  w.objects.any (fun o => o.1 == key)

/-- The call `storage.from('uploads').upload(key, file)` of lines 24-26. It is
made without options, so the client's `upsert` option keeps its default, off:
the write is a create, which reports an error when the key already holds an
object and otherwise stores the object under the key. -/
def storageUpload (ft : Fault) (key : Str) (file : File) (w : World) :
    Reply Unit × World :=
  match ft with
  | .throws e => (.throws e, w)
  | .error e => (.error e, w)
  | .none =>
    if w.hasObject key then (.error .plain, w)
    else (.ok (), { w with objects := (key, file) :: w.objects })

/-- The call `storage.from('uploads').remove(keys)`: the objects under the given keys
are gone afterwards; a key that holds no object is no error. A key is `none`
when the array element is `undefined`. -/
def storageRemove (ft : Fault) (keys : List (Option Str)) (w : World) :
    Reply Unit × World :=
  match ft with
  | .throws e => (.throws e, w)
  | .error e => (.error e, w)
  | .none =>
    (.ok (), { w with objects := w.objects.filter (fun o => !(keys.contains (some o.1))) })

/-- The call `from('files').insert([record])`: the row is appended. The table enforces
no uniqueness of `code`. -/
def dbInsert (ft : Fault) (record : FileRecord) (w : World) : Reply Unit × World :=
  match ft with
  | .throws e => (.throws e, w)
  | .error e => (.error e, w)
  | .none => (.ok (), { w with files := w.files ++ [record] })

/-- The call `from('files').select('*').eq('code', code).single()`: the one row with
that code; an error when there is no such row or more than one. -/
def dbSelect (ft : LookupFault) (code : Str) (w : World) : Reply (Option FileRecord) :=
  match ft with
  | .throws e => .throws e
  | .error e => .error e
  | .noData => .ok none
  | .none =>
    match w.files.filter (fun r => r.code == code) with
    | [r] => .ok (some r)
    | _ => .error .plain

/-- The call `from('files').delete().eq('code', code)`: every row with that code is
gone afterwards. -/
def dbDelete (ft : Fault) (code : Str) (w : World) : Reply Unit × World :=
  match ft with
  | .throws e => (.throws e, w)
  | .error e => (.error e, w)
  | .none => (.ok (), { w with files := w.files.filter (fun r => !(r.code == code)) })

/-! ## Runs -/

/-- How a function body completes: it returns a value, or throws one. For an
`async` function these are the fulfilled and the rejected promise. -/
inductive Completion (α : Type) where
  | returned (value : α)
  | threw (e : Value)
deriving DecidableEq, Repr

/-- One run of an operation: its completion, the stores afterwards, and the
collaborator calls issued, in order. -/
structure Run (α : Type) where
  outcome : Completion α
  world : World
  trace : List Call
deriving DecidableEq, Repr

/-- The enclosing `try { ... } catch (error) { console.error(..., error); return null; }`
of both operations (lines 68-71 and 98-101): a body that returns is left as it
is; when the body throws `e`, the handler logs `e` and returns `null`, unless
the logging itself throws, and then that value leaves the function. -/
def tryCatch {α : Type} (body : Run (Option α)) : Run (Option α) :=
  match body.outcome with
  | .returned _ => body
  | .threw e =>
    match consoleError e with
    | none => { body with outcome := .returned none }
    | some raised => { body with outcome := .threw raised }

/-! ## `uploadFile` (lines 15-72) -/

/-- The retention window of line 39, `7 * 24 * 60 * 60 * 1000` milliseconds. -/
def sevenDays : Nat := 7 * 24 * 60 * 60 * 1000

/-- What the environment supplies to one call of `uploadFile`: the random
draw, the two clock reads (line 39 and line 65), the reply of `getPublicUrl`
for each key, the fault of each collaborator call, and `readError`, the value
thrown by reading `file.name` when the input cannot be read (a `TypeError` for
`null` and `undefined`, whatever a getter throws otherwise). -/
structure UploadEnv where
  random : Draw
  readError : Value
  uploadFault : Fault
  publicUrl : Str → UrlReply
  now1 : Nat
  insertFault : Fault
  removeFault : Fault
  now2 : Nat

/-- Line 21: the storage key, `uploads/` + code + `_` + file name. -/
def filePath (code name : Str) : Str :=
  ['u', 'p', 'l', 'o', 'a', 'd', 's', '/'] ++ code ++ ['_'] ++ name

/-- Lines 44-50: the row handed to the insert. -/
def newRecord (code : Str) (f : File) (publicUrl : Option Str) (expireDate : Nat) :
    FileRecord :=
  { code := code, name := f.name, url := publicUrl, size := f.size,
    expire_date := expireDate }

/-- Lines 17-67, the body of the `try` block of `uploadFile`. The argument is
`none` for an input whose `name` cannot be read (`null`, `undefined`, a
throwing getter): reading it at line 21 throws `env.readError`. -/
def uploadFileBody (env : UploadEnv) (file : Option File) (w : World) :
    Run (Option UploadResult) :=
  let code := generateCode env.random
  match file with
  | none => ⟨.threw env.readError, w, []⟩
  | some f =>
    let path := filePath code f.name
    let up := storageUpload env.uploadFault path f w
    let t1 := [Call.storageUpload path f]
    match up.1 with
    | .throws e => ⟨.threw e, up.2, t1⟩
    | .error uploadError =>
      match consoleError uploadError with
      | some raised => ⟨.threw raised, up.2, t1⟩
      | none => ⟨.returned none, up.2, t1⟩
    | .ok _ =>
      let t2 := t1 ++ [Call.getPublicUrl path]
      match env.publicUrl path with
      | .throws e => ⟨.threw e, up.2, t2⟩
      | reply =>
        let publicUrl := reply.value
        let expireDate := env.now1 + sevenDays
        let record := newRecord code f publicUrl expireDate
        let ins := dbInsert env.insertFault record up.2
        let t3 := t2 ++ [Call.insert record]
        match ins.1 with
        | .throws e => ⟨.threw e, ins.2, t3⟩
        | .error dbError =>
          match consoleError dbError with
          | some raised => ⟨.threw raised, ins.2, t3⟩
          | none =>
            let rm := storageRemove env.removeFault [some path] ins.2
            let t4 := t3 ++ [Call.storageRemove [some path]]
            match rm.1 with
            | .throws e => ⟨.threw e, rm.2, t4⟩
            | _ => ⟨.returned none, rm.2, t4⟩
        | .ok _ =>
          ⟨.returned (some
              { code := code, name := f.name, url := publicUrl, size := f.size,
                uploadDate := toISOString env.now2,
                expireDate := toISOString expireDate }),
            ins.2, t3⟩

/-- The function `uploadFile(file)`: the body inside its `try`/`catch`. -/
def uploadFile (env : UploadEnv) (file : Option File) (w : World) :
    Run (Option UploadResult) :=
  tryCatch (uploadFileBody env file w)

/-! ## `getFile` (lines 75-102) -/

/-- What the environment supplies to one call of `getFile`: the clock read of
line 90 and the fault of each collaborator call. -/
structure GetEnv where
  selectFault : LookupFault
  now : Nat
  removeFault : Fault
  deleteFault : Fault

/-- Lines 77-97, the body of the `try` block of `getFile`. Reading
`data.expire_date` of a reply without a row, or `data.url.split` of a row
whose `url` is `null`, throws a `TypeError`. -/
def getFileBody (env : GetEnv) (code : Str) (w : World) : Run (Option FileRecord) :=
  let t1 := [Call.select code]
  match dbSelect env.selectFault code w with
  | .throws e => ⟨.threw e, w, t1⟩
  | .error error =>
    match consoleError error with
    | some raised => ⟨.threw raised, w, t1⟩
    | none => ⟨.returned none, w, t1⟩
  | .ok none => ⟨.threw .plain, w, t1⟩
  | .ok (some data) =>
    if data.expire_date < env.now then
      match data.url with
      | none => ⟨.threw .plain, w, t1⟩
      | some url =>
        let key := pop (split '/' url)
        let rm := storageRemove env.removeFault [key] w
        let t2 := t1 ++ [Call.storageRemove [key]]
        match rm.1 with
        | .throws e => ⟨.threw e, rm.2, t2⟩
        | _ =>
          let del := dbDelete env.deleteFault code rm.2
          let t3 := t2 ++ [Call.delete code]
          match del.1 with
          | .throws e => ⟨.threw e, del.2, t3⟩
          | _ => ⟨.returned none, del.2, t3⟩
    else ⟨.returned (some data), w, t1⟩

/-- The function `getFile(code)`: the body inside its `try`/`catch`. -/
def getFile (env : GetEnv) (code : Str) (w : World) : Run (Option FileRecord) :=
  tryCatch (getFileBody env code w)

/-! ## Environments in which logging does not throw out of the handler -/

/-- A collaborator call whose error, if any, is logged inside the `try` block
(`logged`): the value it throws is printed by the handler, and its error is
printed, or throws a value the handler prints. -/
def Fault.quiet (logged : Bool) : Fault → Bool
  | .none => true
  | .error e => !logged || e.loggable
  | .throws e => e.printable

/-- The same for the lookup. -/
def LookupFault.quiet : LookupFault → Bool
  | .none => true
  | .noData => true
  | .error e => e.loggable
  | .throws e => e.printable

/-- The same for `getPublicUrl`. -/
def UrlReply.quiet : UrlReply → Bool
  | .throws e => e.printable
  | _ => true

/-- Nothing in a call of `uploadFile` makes the `catch` handler's
`console.error` throw: the value thrown by an unreadable input is printed, the
errors of the write and of the insert are logged (lines 29 and 53), the reply
of the compensating delete is not read. -/
def UploadEnv.quiet (env : UploadEnv) : Prop :=
  env.readError.printable = true ∧ env.uploadFault.quiet true = true ∧ (∀ key, (env.publicUrl key).quiet = true) ∧
    env.insertFault.quiet true = true ∧ env.removeFault.quiet false = true

/-- No collaborator call of `getFile` makes the `catch` handler's
`console.error` throw: the error of the lookup is logged (line 85), the
replies of the two deletes are not read. -/
def GetEnv.quiet (env : GetEnv) : Prop :=
  env.selectFault.quiet = true ∧ env.removeFault.quiet false = true ∧
    env.deleteFault.quiet false = true

/-! ## Derived definitions and concrete inputs -/

/-- The descriptor of lines 60-67. -/
def descriptor (env : UploadEnv) (f : File) : UploadResult :=
  { code := generateCode env.random, name := f.name,
    url := (env.publicUrl (filePath (generateCode env.random) f.name)).value,
    size := f.size, uploadDate := toISOString env.now2,
    expireDate := toISOString (env.now1 + sevenDays) }

/-- The row of lines 44-50. -/
def insertedRecord (env : UploadEnv) (f : File) : FileRecord :=
  newRecord (generateCode env.random) f
    (env.publicUrl (filePath (generateCode env.random) f.name)).value (env.now1 + sevenDays)

/-- A run of the service used as concrete input: the draw `0.5`, a ten-byte
`notes.txt`, a public URL made of a base address and the key. -/
def exEnv : UploadEnv :=
  { random := ⟨1, 1⟩, readError := Value.plain, uploadFault := Fault.none,
    publicUrl := fun key =>
      UrlReply.url ("https://p.supabase.co/storage/v1/object/public/uploads/".toList ++ key),
    now1 := 1000, insertFault := Fault.none, removeFault := Fault.none, now2 := 1002 }

/-- A ten-byte file named `notes.txt`. -/
def exFile : File := { name := "notes.txt".toList, size := 10, content := [110, 111, 116, 101] }

/-- Both stores empty. -/
def emptyWorld : World := { objects := [], files := [] }

/-- The stores after `uploadFile` of `exFile` on empty stores. -/
def exWorld : World := (uploadFile exEnv (some exFile) emptyWorld).world

/-- An environment of `getFile` without faults, reading the clock at `now`. -/
def getAt (now : Nat) : GetEnv :=
  { selectFault := LookupFault.none, now := now, removeFault := Fault.none,
    deleteFault := Fault.none }

/-- As `exEnv`, with a storage write that reports an error. -/
def exEnvWriteError : UploadEnv := { exEnv with uploadFault := Fault.error Value.plain }

/-- As `exEnv`, with a metadata insert that reports an error. -/
def exEnvInsertError : UploadEnv := { exEnv with insertFault := Fault.error Value.plain }

/-- As `exEnv`, with a `getPublicUrl` whose reply has no `publicUrl` property
of its own (the url sits under `data`). -/
def exEnvNoUrl : UploadEnv := { exEnv with publicUrl := fun _ => UrlReply.undefined }

/-- The stores after `uploadFile` of `exFile` on empty stores under
`exEnvNoUrl`: the row holds no url. -/
def noUrlWorld : World := (uploadFile exEnvNoUrl (some exFile) emptyWorld).world

/-- A metadata store holding one expired record whose `url` is `null`. -/
def nullUrlWorld : World :=
  { objects := [],
    files := [{ code := "FV-I".toList, name := "notes.txt".toList, url := none, size := 10,
                expire_date := 1000 }] }

/-- A metadata store that already holds a record with the code `FV-I`. -/
def collisionWorld : World :=
  { objects := [],
    files := [{ code := "FV-I".toList, name := "other.txt".toList, url := none, size := 3,
                expire_date := 5000 }] }

/-- An environment of `getFile` reading the clock at `now` whose lookup is
subject to `ft`. -/
def getWith (ft : LookupFault) (now : Nat) : GetEnv :=
  { selectFault := ft, now := now, removeFault := Fault.none, deleteFault := Fault.none }

/-- A value whose formatting throws an `Error`. -/
def evil : Value := Value.unprintable Value.plain

/-- A value whose formatting throws `evil`. -/
def evil2 : Value := Value.unprintable evil

/-! ## Basic facts about runs -/

theorem tryCatch_world {α : Type} (body : Run (Option α)) :
    (tryCatch body).world = body.world := by
  unfold tryCatch
  cases body.outcome with
  | returned v => rfl
  | threw e => cases e <;> rfl

theorem tryCatch_trace {α : Type} (body : Run (Option α)) :
    (tryCatch body).trace = body.trace := by
  unfold tryCatch
  cases body.outcome with
  | returned v => rfl
  | threw e => cases e <;> rfl

theorem tryCatch_returned {α : Type} (body : Run (Option α)) (v : Option α)
    (h : body.outcome = Completion.returned v) :
    (tryCatch body).outcome = Completion.returned v := by
  unfold tryCatch
  simp [h]

theorem tryCatch_threw {α : Type} (body : Run (Option α)) (e : Value)
    (h : body.outcome = Completion.threw e) :
    (tryCatch body).outcome =
      match consoleError e with
      | none => Completion.returned none
      | some raised => Completion.threw raised := by
  unfold tryCatch
  simp only [h]
  cases consoleError e <;> rfl

theorem tryCatch_some {α : Type} (body : Run (Option α)) (a : α) :
    (tryCatch body).outcome = Completion.returned (some a) ↔
      body.outcome = Completion.returned (some a) := by
  cases h : body.outcome with
  | returned v => rw [tryCatch_returned body v h]
  | threw e =>
    rw [tryCatch_threw body e h]
    cases e <;> simp [consoleError]

/-- A body that throws only values `console.error` prints completes, inside
its `try`/`catch`, by returning. -/
theorem tryCatch_returns_of_printable {α : Type} (body : Run (Option α))
    (h : ∀ e, body.outcome = Completion.threw e → e.printable = true) :
    ∃ v, (tryCatch body).outcome = Completion.returned v := by
  cases hb : body.outcome with
  | returned v => exact ⟨v, tryCatch_returned body v hb⟩
  | threw e =>
    rw [tryCatch_threw body e hb]
    have hp := h e hb
    cases e with
    | plain => exact ⟨none, rfl⟩
    | unprintable r => simp [Value.printable] at hp

theorem printable_of_loggable (e raised : Value) (h : e.loggable = true)
    (hr : consoleError e = some raised) : raised.printable = true := by
  cases e with
  | plain => simp [consoleError] at hr
  | unprintable r =>
    simp only [consoleError, Option.some.injEq] at hr
    subst hr
    simpa [Value.loggable] using h

/-! ## Basic facts about the collaborators -/

theorem storageUpload_not_ok_world (ft : Fault) (key : Str) (file : File) (w : World)
    (h : (storageUpload ft key file w).1 ≠ Reply.ok ()) :
    (storageUpload ft key file w).2 = w := by
  unfold storageUpload at h ⊢
  cases ft <;> simp at h ⊢
  split <;> simp_all

theorem storageUpload_ok_iff (ft : Fault) (key : Str) (file : File) (w : World) :
    (storageUpload ft key file w).1 = Reply.ok () ↔ ft = Fault.none ∧ w.hasObject key = false := by
  unfold storageUpload
  cases ft <;> simp
  split <;> simp_all

theorem storageUpload_ok_world (ft : Fault) (key : Str) (file : File) (w : World)
    (h : (storageUpload ft key file w).1 = Reply.ok ()) :
    (storageUpload ft key file w).2 = { w with objects := (key, file) :: w.objects } := by
  obtain ⟨h1, h2⟩ := (storageUpload_ok_iff ft key file w).1 h
  subst h1
  simp [storageUpload, h2]

theorem storageUpload_error_quiet (ft : Fault) (key : Str) (file : File) (w : World)
    (e : Value) (hq : ft.quiet true = true)
    (h : (storageUpload ft key file w).1 = Reply.error e) : e.loggable = true := by
  unfold storageUpload at h
  cases ft with
  | none =>
    simp only at h
    split at h <;> simp at h
    subst h
    rfl
  | error e' =>
    simp only [Reply.error.injEq] at h
    subst h
    simpa [Fault.quiet] using hq
  | throws e' => simp at h

theorem storageUpload_throws_quiet (ft : Fault) (key : Str) (file : File) (w : World)
    (e : Value) (hq : ft.quiet true = true)
    (h : (storageUpload ft key file w).1 = Reply.throws e) : e.printable = true := by
  unfold storageUpload at h
  cases ft with
  | none =>
    simp only at h
    split at h <;> simp at h
  | error e' => simp at h
  | throws e' =>
    simp only [Reply.throws.injEq] at h
    subst h
    simpa [Fault.quiet] using hq

theorem dbInsert_error_iff (ft : Fault) (record : FileRecord) (w : World) (e : Value) :
    (dbInsert ft record w).1 = Reply.error e ↔ ft = Fault.error e := by
  unfold dbInsert
  cases ft <;> simp

theorem dbInsert_throws_iff (ft : Fault) (record : FileRecord) (w : World) (e : Value) :
    (dbInsert ft record w).1 = Reply.throws e ↔ ft = Fault.throws e := by
  unfold dbInsert
  cases ft <;> simp

theorem storageRemove_throws_iff (ft : Fault) (keys : List (Option Str)) (w : World)
    (e : Value) : (storageRemove ft keys w).1 = Reply.throws e ↔ ft = Fault.throws e := by
  unfold storageRemove
  cases ft <;> simp

theorem dbDelete_throws_iff (ft : Fault) (code : Str) (w : World) (e : Value) :
    (dbDelete ft code w).1 = Reply.throws e ↔ ft = Fault.throws e := by
  unfold dbDelete
  cases ft <;> simp

theorem storageRemove_files (ft : Fault) (keys : List (Option Str)) (w : World) :
    (storageRemove ft keys w).2.files = w.files := by
  unfold storageRemove
  cases ft <;> rfl

theorem dbDelete_objects (ft : Fault) (code : Str) (w : World) :
    (dbDelete ft code w).2.objects = w.objects := by
  unfold dbDelete
  cases ft <;> rfl

theorem dbSelect_error_quiet (ft : LookupFault) (code : Str) (w : World) (e : Value)
    (hq : ft.quiet = true) (h : dbSelect ft code w = Reply.error e) : e.loggable = true := by
  unfold dbSelect at h
  cases ft with
  | none =>
    simp only at h
    split at h <;> simp at h
    subst h
    rfl
  | error e' =>
    simp only [Reply.error.injEq] at h
    subst h
    simpa [LookupFault.quiet] using hq
  | throws e' => simp at h
  | noData => simp at h

theorem dbSelect_throws_quiet (ft : LookupFault) (code : Str) (w : World) (e : Value)
    (hq : ft.quiet = true) (h : dbSelect ft code w = Reply.throws e) : e.printable = true := by
  unfold dbSelect at h
  cases ft with
  | none =>
    simp only at h
    split at h <;> simp at h
  | error e' => simp at h
  | throws e' =>
    simp only [Reply.throws.injEq] at h
    subst h
    simpa [LookupFault.quiet] using hq
  | noData => simp at h

/-! ## C9: which thrown values reach the caller -/

theorem fault_throws_printable (ft : Fault) (logged : Bool) (e : Value)
    (hq : ft.quiet logged = true) (h : ft = Fault.throws e) : e.printable = true := by
  subst h
  simpa [Fault.quiet] using hq

theorem fault_error_loggable (ft : Fault) (e : Value)
    (hq : ft.quiet true = true) (h : ft = Fault.error e) : e.loggable = true := by
  subst h
  simpa [Fault.quiet] using hq

/-- In a quiet environment the body of `uploadFile` throws only values that
`console.error` prints. -/
theorem uploadFileBody_threw_printable (env : UploadEnv) (file : Option File) (w : World)
    (hq : env.quiet) (e : Value)
    (h : (uploadFileBody env file w).outcome = Completion.threw e) : e.printable = true := by
  obtain ⟨hq0, hq1, hq2, hq3, hq4⟩ := hq
  unfold uploadFileBody at h
  cases file with
  | none =>
    simp only [Completion.threw.injEq] at h
    subst h
    exact hq0
  | some f =>
    simp only at h
    cases hup : (storageUpload env.uploadFault (filePath (generateCode env.random) f.name) f w).1 with
    | throws e' =>
      simp only [hup, Completion.threw.injEq] at h
      subst h
      exact storageUpload_throws_quiet _ _ _ _ _ hq1 hup
    | error ue =>
      simp only [hup] at h
      cases hc : consoleError ue with
      | none => simp [hc] at h
      | some raised =>
        simp only [hc, Completion.threw.injEq] at h
        subst h
        exact printable_of_loggable ue _ (storageUpload_error_quiet _ _ _ _ _ hq1 hup) hc
    | ok u =>
      simp only [hup] at h
      have hurl := hq2 (filePath (generateCode env.random) f.name)
      revert h
      cases hu : env.publicUrl (filePath (generateCode env.random) f.name) with
      | throws e' =>
        intro h
        simp only [Completion.threw.injEq] at h
        subst h
        simpa [hu, UrlReply.quiet] using hurl
      | undefined =>
        simp only
        cases hi : (dbInsert env.insertFault
          (newRecord (generateCode env.random) f UrlReply.undefined.value (env.now1 + sevenDays))
          (storageUpload env.uploadFault (filePath (generateCode env.random) f.name) f w).2).1 with
        | throws e' =>
          intro h
          simp only [Completion.threw.injEq] at h
          subst h
          exact fault_throws_printable _ _ _ hq3 ((dbInsert_throws_iff _ _ _ _).1 hi)
        | error de =>
          simp only
          cases hc : consoleError de with
          | some raised =>
            intro h
            simp only [Completion.threw.injEq] at h
            subst h
            exact printable_of_loggable de _
              (fault_error_loggable _ _ hq3 ((dbInsert_error_iff _ _ _ _).1 hi)) hc
          | none =>
            simp only
            cases hr : (storageRemove env.removeFault
              [some (filePath (generateCode env.random) f.name)]
              (dbInsert env.insertFault
                (newRecord (generateCode env.random) f UrlReply.undefined.value
                  (env.now1 + sevenDays))
                (storageUpload env.uploadFault
                  (filePath (generateCode env.random) f.name) f w).2).2).1 with
            | throws e' =>
              intro h
              simp only [Completion.threw.injEq] at h
              subst h
              exact fault_throws_printable _ _ _ hq4 ((storageRemove_throws_iff _ _ _ _).1 hr)
            | error _ => simp
            | ok _ => simp
        | ok _ => simp
      | url x =>
        simp only
        cases hi : (dbInsert env.insertFault
          (newRecord (generateCode env.random) f (UrlReply.url x).value (env.now1 + sevenDays))
          (storageUpload env.uploadFault (filePath (generateCode env.random) f.name) f w).2).1 with
        | throws e' =>
          intro h
          simp only [Completion.threw.injEq] at h
          subst h
          exact fault_throws_printable _ _ _ hq3 ((dbInsert_throws_iff _ _ _ _).1 hi)
        | error de =>
          simp only
          cases hc : consoleError de with
          | some raised =>
            intro h
            simp only [Completion.threw.injEq] at h
            subst h
            exact printable_of_loggable de _
              (fault_error_loggable _ _ hq3 ((dbInsert_error_iff _ _ _ _).1 hi)) hc
          | none =>
            simp only
            cases hr : (storageRemove env.removeFault
              [some (filePath (generateCode env.random) f.name)]
              (dbInsert env.insertFault
                (newRecord (generateCode env.random) f (UrlReply.url x).value
                  (env.now1 + sevenDays))
                (storageUpload env.uploadFault
                  (filePath (generateCode env.random) f.name) f w).2).2).1 with
            | throws e' =>
              intro h
              simp only [Completion.threw.injEq] at h
              subst h
              exact fault_throws_printable _ _ _ hq4 ((storageRemove_throws_iff _ _ _ _).1 hr)
            | error _ => simp
            | ok _ => simp
        | ok _ => simp

/-- In a quiet environment the body of `getFile` throws only values that
`console.error` prints. -/
theorem getFileBody_threw_printable (env : GetEnv) (code : Str) (w : World)
    (hq : env.quiet) (e : Value)
    (h : (getFileBody env code w).outcome = Completion.threw e) : e.printable = true := by
  obtain ⟨hq1, hq2, hq3⟩ := hq
  unfold getFileBody at h
  cases hs : dbSelect env.selectFault code w with
  | throws e' =>
    simp only [hs, Completion.threw.injEq] at h
    subst h
    exact dbSelect_throws_quiet _ _ _ _ hq1 hs
  | error le =>
    simp only [hs] at h
    cases hc : consoleError le with
    | none => simp [hc] at h
    | some raised =>
      simp only [hc, Completion.threw.injEq] at h
      subst h
      exact printable_of_loggable le _ (dbSelect_error_quiet _ _ _ _ hq1 hs) hc
  | ok data =>
    cases data with
    | none =>
      simp only [hs, Completion.threw.injEq] at h
      subst h
      rfl
    | some d =>
      simp only [hs] at h
      by_cases hexp : d.expire_date < env.now
      · simp only [hexp, if_true] at h
        cases hu : d.url with
        | none =>
          simp only [hu, Completion.threw.injEq] at h
          subst h
          rfl
        | some u =>
          simp only [hu] at h
          revert h
          cases hr : (storageRemove env.removeFault [pop (split '/' u)] w).1 with
          | throws e' =>
            intro h
            simp only [Completion.threw.injEq] at h
            subst h
            exact fault_throws_printable _ _ _ hq2 ((storageRemove_throws_iff _ _ _ _).1 hr)
          | error _ =>
            simp only
            cases hd : (dbDelete env.deleteFault code
              (storageRemove env.removeFault [pop (split '/' u)] w).2).1 with
            | throws e' =>
              intro h
              simp only [Completion.threw.injEq] at h
              subst h
              exact fault_throws_printable _ _ _ hq3 ((dbDelete_throws_iff _ _ _ _).1 hd)
            | error _ => simp
            | ok _ => simp
          | ok _ =>
            simp only
            cases hd : (dbDelete env.deleteFault code
              (storageRemove env.removeFault [pop (split '/' u)] w).2).1 with
            | throws e' =>
              intro h
              simp only [Completion.threw.injEq] at h
              subst h
              exact fault_throws_printable _ _ _ hq3 ((dbDelete_throws_iff _ _ _ _).1 hd)
            | error _ => simp
            | ok _ => simp
      · simp [hexp] at h

/-- C9, with the condition on logging. For every input (readable or not),
every code, every state of the stores and every behaviour of the two
collaborators in which each call succeeds, reports an error or throws, provided
that `console.error` prints every value thrown inside the `try` block (by a
collaborator call or by reading the input), and that it prints the error of a
reply it logs inside the `try` block (lines 29, 53, 85) or throws, while
formatting it, a value it prints: `uploadFile` and `getFile` complete by
returning a result or `null`, never by throwing. -/
theorem uploadFile_getFile_return_when_logged :
    (∀ (env : UploadEnv) (file : Option File) (w : World), env.quiet →
        ∃ v, (uploadFile env file w).outcome = Completion.returned v) ∧
    (∀ (env : GetEnv) (code : Str) (w : World), env.quiet →
        ∃ v, (getFile env code w).outcome = Completion.returned v) :=
  ⟨fun env file w hq =>
      tryCatch_returns_of_printable _ (uploadFileBody_threw_printable env file w hq),
   fun env code w hq =>
      tryCatch_returns_of_printable _ (getFileBody_threw_printable env code w hq)⟩

/-! ## C8: a failed storage write stops the upload -/

/-- C8, with the condition on logging. If the storage write of `uploadFile`
returns an error, the storage write is the only collaborator call `uploadFile`
issues (no metadata insert, no storage delete, no second write) and both
stores are as they were before the call; and `uploadFile` returns `null`,
provided `console.error` prints that error (line 29) or throws, while
formatting it, a value it prints. -/
theorem uploadFile_storage_write_error (env : UploadEnv) (f : File) (w : World) (e : Value)
    (h : (storageUpload env.uploadFault (filePath (generateCode env.random) f.name) f w).1
          = Reply.error e) :
    (uploadFile env (some f) w).trace
      = [Call.storageUpload (filePath (generateCode env.random) f.name) f] ∧
    (uploadFile env (some f) w).world = w ∧
    (e.loggable = true → (uploadFile env (some f) w).outcome = Completion.returned none) := by
  have hw := storageUpload_not_ok_world env.uploadFault
    (filePath (generateCode env.random) f.name) f w (by rw [h]; simp)
  unfold uploadFile
  rw [tryCatch_trace, tryCatch_world]
  refine ⟨?_, ?_, ?_⟩
  · unfold uploadFileBody
    simp only [h]
    cases consoleError e <;> rfl
  · unfold uploadFileBody
    simp only [h, hw]
    cases consoleError e <;> simp [hw]
  · intro hl
    unfold tryCatch uploadFileBody
    simp only [h]
    cases e with
    | plain => simp [consoleError]
    | unprintable r =>
      cases r with
      | plain => simp [consoleError]
      | unprintable r2 => simp [Value.loggable, Value.printable] at hl

/-! ## C10 and C7: what `getFile` returns, and when it leaves the stores alone -/

theorem getFileBody_fresh (env : GetEnv) (code : Str) (w : World) (r : FileRecord)
    (hsel : dbSelect env.selectFault code w = Reply.ok (some r))
    (hfresh : ¬ r.expire_date < env.now) :
    getFileBody env code w = ⟨Completion.returned (some r), w, [Call.select code]⟩ := by
  simp [getFileBody, hsel, hfresh]

/-- Off the expired path the lookup is the only call and the stores are left alone. -/
theorem getFile_untouched (env : GetEnv) (code : Str) (w : World)
    (h : ∀ r, dbSelect env.selectFault code w = Reply.ok (some r) → ¬ r.expire_date < env.now) :
    (getFile env code w).trace = [Call.select code] ∧
    (getFile env code w).world = w := by
  unfold getFile
  rw [tryCatch_trace, tryCatch_world]
  cases hs : dbSelect env.selectFault code w with
  | throws e => simp [getFileBody, hs]
  | error e => cases hc : consoleError e <;> simp [getFileBody, hs, hc]
  | ok data =>
    cases data with
    | none => simp [getFileBody, hs]
    | some d => simp [getFileBody_fresh env code w d hs (h d hs)]

/-- C10. If the lookup of `getFile` does not find an expired record (it throws,
reports an error, finds no record, or finds a record whose `expire_date` is
not earlier than the current time), then the lookup is the only collaborator
call `getFile` issues (no storage delete, no metadata delete) and both the
object storage and the metadata store are unchanged by the call. -/
theorem getFile_frame (env : GetEnv) (code : Str) (w : World)
    (h : ∀ r, dbSelect env.selectFault code w = Reply.ok (some r) → ¬ r.expire_date < env.now) :
    (getFile env code w).trace = [Call.select code] ∧
    (getFile env code w).world = w :=
  getFile_untouched env code w h

theorem dbSelect_never_issued (ft : LookupFault) (code : Str) (w : World)
    (h : ∀ r ∈ w.files, r.code ≠ code) (r : FileRecord) :
    dbSelect ft code w ≠ Reply.ok (some r) := by
  have hnil : w.files.filter (fun r => r.code == code) = [] := by
    rw [List.filter_eq_nil_iff]
    intro a ha
    simpa using h a ha
  unfold dbSelect
  cases ft <;> simp [hnil]

/-- A non-null result of `getFile` is the record the lookup yields, not
expired. -/
theorem getFile_some_iff (env : GetEnv) (code : Str) (w : World) (r : FileRecord) :
    (getFile env code w).outcome = Completion.returned (some r) ↔
      (dbSelect env.selectFault code w = Reply.ok (some r) ∧ env.now ≤ r.expire_date) := by
  unfold getFile
  rw [tryCatch_some]
  unfold getFileBody
  cases hs : dbSelect env.selectFault code w with
  | throws e => simp
  | error e => cases hc : consoleError e <;> simp [hc]
  | ok data =>
    cases data with
    | none => simp
    | some d =>
      by_cases hexp : d.expire_date < env.now
      · simp only [hexp, if_true]
        cases d.url with
        | none => simp; intro hd; subst hd; omega
        | some u =>
          simp only []
          have : ¬ env.now ≤ d.expire_date := by omega
          constructor
          · intro hh
            exfalso
            revert hh
            cases (storageRemove env.removeFault [pop (split '/' u)] w).1 <;>
              cases (dbDelete env.deleteFault code
                (storageRemove env.removeFault [pop (split '/' u)] w).2).1 <;> simp
          · rintro ⟨hd, hle⟩
            simp at hd; subst hd; exact absurd hle this
      · simp [hexp]
        intro hd
        subst hd
        omega

/-- C7, with the condition on logging. `getFile(code)` returns a non-null
result `r` exactly when the lookup by code yields the single record `r`
without error and the current time is not later than `r.expire_date` (an
`expire_date` equal to the current instant is not expired): the result is the
record as found. In particular, when no record with that code is in the
store, `getFile` returns no record; it returns `null`, provided `console.error`
prints the value the lookup throws, if it throws, and prints the error the
lookup reports, if it reports one, or throws, while formatting it, a value it
prints. -/
theorem getFile_returns_iff (env : GetEnv) (code : Str) (w : World) :
    (∀ r : FileRecord,
      (getFile env code w).outcome = Completion.returned (some r) ↔
        (dbSelect env.selectFault code w = Reply.ok (some r) ∧ env.now ≤ r.expire_date)) ∧
    ((∀ r ∈ w.files, r.code ≠ code) →
      (∀ r, (getFile env code w).outcome ≠ Completion.returned (some r)) ∧
      (env.selectFault.quiet = true →
        (getFile env code w).outcome = Completion.returned none)) := by
  refine ⟨getFile_some_iff env code w, fun hno => ⟨fun r hr => ?_, fun hq => ?_⟩⟩
  · exact absurd ((getFile_some_iff env code w r).1 hr).1
      (dbSelect_never_issued env.selectFault code w hno r)
  · unfold getFile tryCatch getFileBody
    cases hs : dbSelect env.selectFault code w with
    | throws e =>
      have hp := dbSelect_throws_quiet _ _ _ _ hq hs
      cases e with
      | plain => simp [consoleError]
      | unprintable r => simp [Value.printable] at hp
    | error e =>
      have hl := dbSelect_error_quiet _ _ _ _ hq hs
      cases e with
      | plain => simp [consoleError]
      | unprintable r =>
        cases r with
        | plain => simp [consoleError]
        | unprintable r2 => simp [Value.loggable, Value.printable] at hl
    | ok data =>
      cases data with
      | none => simp [consoleError]
      | some d => exact absurd hs (dbSelect_never_issued env.selectFault code w hno d)

/-! ## The successful upload -/

theorem uploadFileBody_ok (env : UploadEnv) (f : File) (w : World)
    (hup : (storageUpload env.uploadFault (filePath (generateCode env.random) f.name) f w).1
            = Reply.ok ())
    (hurl : ∀ t, env.publicUrl (filePath (generateCode env.random) f.name) ≠ UrlReply.throws t)
    (hins : env.insertFault = Fault.none) :
    uploadFileBody env (some f) w =
      ⟨Completion.returned (some (descriptor env f)),
       { objects := (filePath (generateCode env.random) f.name, f) :: w.objects,
         files := w.files ++ [insertedRecord env f] },
       [Call.storageUpload (filePath (generateCode env.random) f.name) f,
        Call.getPublicUrl (filePath (generateCode env.random) f.name),
        Call.insert (insertedRecord env f)]⟩ := by
  have hw := storageUpload_ok_world _ _ _ _ hup
  unfold uploadFileBody
  simp only [hup, hw, hins]
  cases hu : env.publicUrl (filePath (generateCode env.random) f.name) with
  | throws t => exact absurd hu (hurl t)
  | undefined => simp [dbInsert, descriptor, insertedRecord, hu]
  | url u => simp [dbInsert, descriptor, insertedRecord, hu]

theorem uploadFileBody_some (env : UploadEnv) (f : File) (w : World) (d : UploadResult)
    (h : (uploadFileBody env (some f) w).outcome = Completion.returned (some d)) :
    (storageUpload env.uploadFault (filePath (generateCode env.random) f.name) f w).1
      = Reply.ok () ∧
    (∀ t, env.publicUrl (filePath (generateCode env.random) f.name) ≠ UrlReply.throws t) ∧
    env.insertFault = Fault.none ∧ d = descriptor env f := by
  unfold uploadFileBody at h
  cases hup : (storageUpload env.uploadFault (filePath (generateCode env.random) f.name) f w).1 with
  | throws e => simp [hup] at h
  | error e =>
    simp only [hup] at h
    revert h
    cases consoleError e <;> simp
  | ok u =>
    simp only [hup] at h
    cases hu : env.publicUrl (filePath (generateCode env.random) f.name) with
    | throws e => simp [hu] at h
    | undefined =>
      cases hi : env.insertFault with
      | throws e => simp [hu, hi, dbInsert] at h
      | error e =>
        simp only [hu, hi, dbInsert] at h
        revert h
        cases consoleError e with
        | some raised => simp
        | none =>
          simp only
          split <;> simp
      | none =>
        simp [hu, hi, dbInsert] at h
        simp [descriptor, hu, ← h]
    | url x =>
      cases hi : env.insertFault with
      | throws e => simp [hu, hi, dbInsert] at h
      | error e =>
        simp only [hu, hi, dbInsert] at h
        revert h
        cases consoleError e with
        | some raised => simp
        | none =>
          simp only
          split <;> simp
      | none =>
        simp [hu, hi, dbInsert] at h
        simp [descriptor, hu, ← h]

/-- A successful `uploadFile` is fully determined: its descriptor, the stores
afterwards, and the three collaborator calls. -/
theorem uploadFile_success (env : UploadEnv) (f : File) (w : World) (d : UploadResult)
    (h : (uploadFile env (some f) w).outcome = Completion.returned (some d)) :
    uploadFile env (some f) w =
      ⟨Completion.returned (some (descriptor env f)),
       { objects := (filePath (generateCode env.random) f.name, f) :: w.objects,
         files := w.files ++ [insertedRecord env f] },
       [Call.storageUpload (filePath (generateCode env.random) f.name) f,
        Call.getPublicUrl (filePath (generateCode env.random) f.name),
        Call.insert (insertedRecord env f)]⟩ ∧ d = descriptor env f := by
  unfold uploadFile at h ⊢
  rw [tryCatch_some] at h
  obtain ⟨h1, h2, h3, h4⟩ := uploadFileBody_some env f w d h
  rw [uploadFileBody_ok env f w h1 h2 h3]
  exact ⟨rfl, h4⟩

/-! ## C5: the expiry is seven days after the first clock read -/

/-- C5. For every successful `uploadFile`, with `now1` the clock read that
computes the expiry (line 39) and `now2` the clock read that stamps
`uploadDate` (line 65): the returned `expireDate` is `now1 + 604800000`, the
returned `uploadDate` is `now2`, hence
`expireDate = uploadDate + 604800000 - (now2 - now1)`, with
`expireDate = uploadDate + 604800000` when both reads return the same instant;
and the row handed to the metadata insert carries that same instant as its
`expire_date`. -/
theorem uploadFile_expireDate (env : UploadEnv) (f : File) (w : World) (d : UploadResult)
    (h : (uploadFile env (some f) w).outcome = Completion.returned (some d)) :
    d.expireDate.instant = env.now1 + 604800000 ∧
    d.uploadDate.instant = env.now2 ∧
    (d.expireDate.instant : Int)
      = (d.uploadDate.instant : Int) + 604800000 - ((env.now2 : Int) - (env.now1 : Int)) ∧
    (env.now1 = env.now2 → d.expireDate.instant = d.uploadDate.instant + 604800000) ∧
    (∃ record, (uploadFile env (some f) w).trace.getLast? = some (Call.insert record) ∧
      (∀ r, Call.insert r ∈ (uploadFile env (some f) w).trace → r = record) ∧
      record ∈ (uploadFile env (some f) w).world.files ∧
      record.expire_date = d.expireDate.instant) := by
  obtain ⟨hrun, hd⟩ := uploadFile_success env f w d h
  subst hd
  rw [hrun]
  have e1 : (descriptor env f).expireDate.instant = env.now1 + 604800000 := by
    simp [descriptor, toISOString, sevenDays]
  have e2 : (descriptor env f).uploadDate.instant = env.now2 := by
    simp [descriptor, toISOString]
  refine ⟨e1, e2, ?_, ?_, insertedRecord env f, ?_, ?_, ?_, ?_⟩
  · rw [e1, e2]; push_cast; ring
  · intro hh; rw [e1, e2, hh]
  · simp
  · intro r hr; simpa using hr
  · simp
  · rw [e1]; simp [insertedRecord, newRecord, sevenDays]

/-! ## C3: the compensating delete after a failed insert -/

theorem storageRemove_ok_iff (ft : Fault) (keys : List (Option Str)) (w : World) :
    (storageRemove ft keys w).1 = Reply.ok () ↔ ft = Fault.none := by
  unfold storageRemove
  cases ft <;> simp

theorem filter_other_keys (objects : List (Str × File)) (key : Str)
    (h : objects.any (fun o => o.1 == key) = false) :
    objects.filter (fun o => !([some key].contains (some o.1))) = objects := by
  rw [List.filter_eq_self]
  intro a ha
  have hne : ¬ a.1 = key := by
    intro he
    have : objects.any (fun o => o.1 == key) = true :=
      List.any_eq_true.2 ⟨a, ha, by simp [he]⟩
    rw [h] at this
    exact Bool.noConfusion this
  simp [hne]

theorem filter_written_key (objects : List (Str × File)) (key : Str) (file : File)
    (h : objects.any (fun o => o.1 == key) = false) :
    ((key, file) :: objects).filter (fun o => !([some key].contains (some o.1))) = objects := by
  have hhead : (!([some key].contains (some (key, file).1))) = false := by
    simp [List.contains, List.elem]
  rw [List.filter_cons_of_neg (by rw [hhead]; simp)]
  exact filter_other_keys objects key h

theorem uploadFile_insert_error (env : UploadEnv) (f : File) (w : World) (e : Value)
    (hup : (storageUpload env.uploadFault (filePath (generateCode env.random) f.name) f w).1
            = Reply.ok ())
    (hurl : ∀ t, env.publicUrl (filePath (generateCode env.random) f.name) ≠ UrlReply.throws t)
    (hins : env.insertFault = Fault.error e)
    (hlog : e.printable = true) :
    (uploadFile env (some f) w).world
      = (storageRemove env.removeFault [some (filePath (generateCode env.random) f.name)]
          { w with objects := (filePath (generateCode env.random) f.name, f) :: w.objects }).2 ∧
    (uploadFile env (some f) w).trace
      = [Call.storageUpload (filePath (generateCode env.random) f.name) f,
         Call.getPublicUrl (filePath (generateCode env.random) f.name),
         Call.insert (insertedRecord env f),
         Call.storageRemove [some (filePath (generateCode env.random) f.name)]] ∧
    (env.removeFault.quiet false = true →
      (uploadFile env (some f) w).outcome = Completion.returned none) := by
  have hw := storageUpload_ok_world _ _ _ _ hup
  have he : e = Value.plain := by
    cases e with
    | plain => rfl
    | unprintable r => simp [Value.printable] at hlog
  subst he
  unfold uploadFile
  rw [tryCatch_world, tryCatch_trace]
  unfold tryCatch uploadFileBody
  simp only [hup, hw, hins]
  cases hu : env.publicUrl (filePath (generateCode env.random) f.name) with
  | throws t => exact absurd hu (hurl t)
  | undefined =>
    simp only [dbInsert, insertedRecord, hu, consoleError]
    cases hr : env.removeFault with
    | none => simp [storageRemove]
    | error e' => simp [storageRemove]
    | throws e' =>
      cases e' with
      | plain => simp [storageRemove, consoleError]
      | unprintable r => simp [storageRemove, consoleError, Fault.quiet, Value.printable]
  | url u =>
    simp only [dbInsert, insertedRecord, hu, consoleError]
    cases hr : env.removeFault with
    | none => simp [storageRemove]
    | error e' => simp [storageRemove]
    | throws e' =>
      cases e' with
      | plain => simp [storageRemove, consoleError]
      | unprintable r => simp [storageRemove, consoleError, Fault.quiet, Value.printable]

/-- C3, with the conditions on logging and on the record. If during
`uploadFile` the storage write succeeds and the metadata insert is reached and
returns an error that `console.error` prints (line 53), then `uploadFile`
issues, after the insert, one storage delete, for exactly the key of the
storage write (`uploads/` + code + `_` + `file.name`), and leaves the metadata
store as it was before the call; it returns `null`, provided the storage
delete does not throw a value that `console.error` cannot print; and when the
storage delete succeeds, the object storage is equal to its state before the
call. -/
theorem uploadFile_rollback (env : UploadEnv) (f : File) (w : World) (e : Value)
    (hup : (storageUpload env.uploadFault (filePath (generateCode env.random) f.name) f w).1
            = Reply.ok ())
    (hurl : ∀ t, env.publicUrl (filePath (generateCode env.random) f.name) ≠ UrlReply.throws t)
    (hins : (dbInsert env.insertFault (insertedRecord env f)
              (storageUpload env.uploadFault
                (filePath (generateCode env.random) f.name) f w).2).1 = Reply.error e)
    (hlog : e.printable = true) :
    (uploadFile env (some f) w).trace
      = [Call.storageUpload (filePath (generateCode env.random) f.name) f,
         Call.getPublicUrl (filePath (generateCode env.random) f.name),
         Call.insert (insertedRecord env f),
         Call.storageRemove [some (filePath (generateCode env.random) f.name)]] ∧
    (uploadFile env (some f) w).world.files = w.files ∧
    (env.removeFault.quiet false = true →
      (uploadFile env (some f) w).outcome = Completion.returned none) ∧
    ((storageRemove env.removeFault [some (filePath (generateCode env.random) f.name)]
        (dbInsert env.insertFault (insertedRecord env f)
          (storageUpload env.uploadFault
            (filePath (generateCode env.random) f.name) f w).2).2).1 = Reply.ok () →
      (uploadFile env (some f) w).world.objects = w.objects ∧
      (uploadFile env (some f) w).world = w) := by
  have hie := (dbInsert_error_iff _ _ _ _).1 hins
  obtain ⟨hw, ht, ho⟩ := uploadFile_insert_error env f w e hup hurl hie hlog
  have hfiles : (uploadFile env (some f) w).world.files = w.files := by
    rw [hw, storageRemove_files]
  refine ⟨ht, hfiles, ho, ?_⟩
  intro hrm
  have hnone := (storageRemove_ok_iff _ _ _).1 hrm
  have hfresh := ((storageUpload_ok_iff _ _ _ _).1 hup).2
  have hobj : (uploadFile env (some f) w).world.objects = w.objects := by
    rw [hw, hnone]
    simp only [storageRemove]
    exact filter_written_key w.objects _ f hfresh
  refine ⟨hobj, ?_⟩
  cases hwd : (uploadFile env (some f) w).world with
  | mk objs fls =>
    rw [hwd] at hobj hfiles
    simp only at hobj hfiles
    subst hobj
    subst hfiles
    rfl

/-! ## C6: the expired record -/

theorem getFile_absent (env : GetEnv) (code : Str) (w : World)
    (h : ∀ r ∈ w.files, r.code ≠ code) :
    (getFile env code w).world = w ∧ (getFile env code w).trace = [Call.select code] ∧
    ∀ r, (getFile env code w).outcome ≠ Completion.returned (some r) := by
  refine ⟨?_, ?_, fun r hr => ?_⟩
  · exact (getFile_untouched env code w
      (fun r hr => absurd hr (dbSelect_never_issued env.selectFault code w h r))).2
  · exact (getFile_untouched env code w
      (fun r hr => absurd hr (dbSelect_never_issued env.selectFault code w h r))).1
  · exact absurd ((getFile_some_iff env code w r).1 hr).1
      (dbSelect_never_issued env.selectFault code w h r)

theorem dbDelete_ok_iff (ft : Fault) (code : Str) (w : World) :
    (dbDelete ft code w).1 = Reply.ok () ↔ ft = Fault.none := by
  unfold dbDelete
  cases ft <;> simp

theorem dbDelete_ok_absent (ft : Fault) (code : Str) (w : World)
    (h : (dbDelete ft code w).1 = Reply.ok ()) :
    ∀ r ∈ (dbDelete ft code w).2.files, r.code ≠ code := by
  have hn := (dbDelete_ok_iff ft code w).1 h
  subst hn
  intro r hr
  simp only [dbDelete, List.mem_filter] at hr
  simpa using hr.2

/-- The expired path when the stored `url` is a string and the storage delete
does not throw: both deletes are issued, in this order. -/
theorem getFile_run_of_expired (env : GetEnv) (code : Str) (w : World) (r : FileRecord)
    (u : Str)
    (hsel : dbSelect env.selectFault code w = Reply.ok (some r))
    (hexp : r.expire_date < env.now)
    (hurl : r.url = some u)
    (hrm : ∀ t, (storageRemove env.removeFault [pop (split '/' u)] w).1 ≠ Reply.throws t) :
    (getFile env code w).world
      = (dbDelete env.deleteFault code
          (storageRemove env.removeFault [pop (split '/' u)] w).2).2 ∧
    (getFile env code w).trace
      = [Call.select code, Call.storageRemove [pop (split '/' u)], Call.delete code] ∧
    (env.deleteFault.quiet false = true →
      (getFile env code w).outcome = Completion.returned none) := by
  unfold getFile
  rw [tryCatch_world, tryCatch_trace]
  unfold tryCatch getFileBody
  simp only [hsel, hexp, if_true, hurl]
  cases hr : (storageRemove env.removeFault [pop (split '/' u)] w).1 with
  | throws t => exact absurd hr (hrm t)
  | error t =>
    cases hd : env.deleteFault with
    | none => simp [dbDelete]
    | error t' => simp [dbDelete]
    | throws t' =>
      cases t' with
      | plain => simp [dbDelete, consoleError]
      | unprintable x => simp [dbDelete, consoleError, Fault.quiet, Value.printable]
  | ok t =>
    cases hd : env.deleteFault with
    | none => simp [dbDelete]
    | error t' => simp [dbDelete]
    | throws t' =>
      cases t' with
      | plain => simp [dbDelete, consoleError]
      | unprintable x => simp [dbDelete, consoleError, Fault.quiet, Value.printable]

/-- With a stored `url` that is a string and a storage delete that does not
throw, an expired record is deleted from the metadata store when the metadata
delete succeeds, and a second `getFile` issues only its lookup and changes
neither store. -/
theorem getFile_expired_with_url (env : GetEnv) (code : Str) (w : World)
    (r : FileRecord) (u : Str)
    (hsel : dbSelect env.selectFault code w = Reply.ok (some r))
    (hexp : r.expire_date < env.now)
    (hurl : r.url = some u)
    (hrm : ∀ t, (storageRemove env.removeFault [pop (split '/' u)] w).1 ≠ Reply.throws t)
    (hdel : (dbDelete env.deleteFault code
        (storageRemove env.removeFault [pop (split '/' u)] w).2).1 = Reply.ok ()) :
    (getFile env code w).outcome = Completion.returned none ∧
    (getFile env code w).trace
      = [Call.select code, Call.storageRemove [pop (split '/' u)], Call.delete code] ∧
    (∀ r' ∈ (getFile env code w).world.files, r'.code ≠ code) ∧
    ∀ env2 : GetEnv,
      (getFile env2 code (getFile env code w).world).world = (getFile env code w).world ∧
      (getFile env2 code (getFile env code w).world).trace = [Call.select code] := by
  obtain ⟨hw, ht, ho⟩ := getFile_run_of_expired env code w r u hsel hexp hurl hrm
  have hq : env.deleteFault.quiet false = true := by
    rw [(dbDelete_ok_iff _ _ _).1 hdel]
    rfl
  have habs : ∀ r' ∈ (getFile env code w).world.files, r'.code ≠ code := by
    rw [hw]
    exact dbDelete_ok_absent _ _ _ hdel
  exact ⟨ho hq, ht, habs, fun env2 =>
    ⟨(getFile_absent env2 code _ habs).1, (getFile_absent env2 code _ habs).2.1⟩⟩

/-! ## C4: round trip -/

theorem filter_code_append (files : List FileRecord) (record : FileRecord)
    (h : ∀ r ∈ files, r.code ≠ record.code) :
    (files ++ [record]).filter (fun r => r.code == record.code) = [record] := by
  have hnil : files.filter (fun r => r.code == record.code) = [] := by
    rw [List.filter_eq_nil_iff]
    intro a ha
    simpa using h a ha
  rw [List.filter_append, hnil]
  simp

/-- C4, with the conditions on the lookup and on the window. Round trip: for
every file and every state of the stores holding no record with the generated
code, if `uploadFile(file)` succeeds and returns a descriptor with code `c`,
then `getFile(c)`, run on the stores as the upload left them, with a lookup
that goes through and a clock read not later than the returned `expireDate`,
returns a record (the one the upload inserted) whose `name` is `file.name` and
whose `size` is `file.size`. -/
theorem upload_then_getFile (env : UploadEnv) (f : File) (w : World) (d : UploadResult)
    (genv : GetEnv)
    (hfresh : ∀ r ∈ w.files, r.code ≠ generateCode env.random)
    (hup : (uploadFile env (some f) w).outcome = Completion.returned (some d))
    (hsel : genv.selectFault = LookupFault.none)
    (hnow : genv.now ≤ d.expireDate.instant) :
    ∃ r, (getFile genv d.code (uploadFile env (some f) w).world).outcome
          = Completion.returned (some r) ∧
      r = insertedRecord env f ∧ r.code = d.code ∧ r.name = f.name ∧ r.size = f.size := by
  obtain ⟨hrun, hd⟩ := uploadFile_success env f w d hup
  subst hd
  rw [hrun]
  have hcode : (descriptor env f).code = (insertedRecord env f).code := rfl
  have hlook : dbSelect genv.selectFault (descriptor env f).code
      { objects := (filePath (generateCode env.random) f.name, f) :: w.objects,
        files := w.files ++ [insertedRecord env f] } = Reply.ok (some (insertedRecord env f)) := by
    rw [hsel, hcode]
    simp only [dbSelect]
    rw [filter_code_append w.files (insertedRecord env f) hfresh]
  have hnot : ¬ (insertedRecord env f).expire_date < genv.now := by
    simp only [descriptor, toISOString] at hnow
    simp only [insertedRecord, newRecord]
    omega
  refine ⟨insertedRecord env f, ?_, rfl, rfl, rfl, rfl⟩
  unfold getFile
  rw [tryCatch_some, getFileBody_fresh genv _ _ _ hlook hnot]

/-! ## C2: the key of the expiry delete -/

theorem split_segments_no_sep (sep : Char) (s : Str) :
    ∀ seg ∈ split sep s, sep ∉ seg := by
  induction s with
  | nil => intro seg hseg; simp [split] at hseg; simp [hseg]
  | cons c cs ih =>
    intro seg hseg
    unfold split at hseg
    by_cases hc : c = sep
    · simp only [hc, if_true, List.mem_cons] at hseg
      rcases hseg with h | h
      · simp [h]
      · exact ih seg h
    · simp only [hc, if_false] at hseg
      cases hsp : split sep cs with
      | nil => simp [hsp] at hseg; simp [hseg]; exact fun h => hc h.symm
      | cons seg0 rest =>
        rw [hsp] at hseg ih
        simp only [List.mem_cons] at hseg
        rcases hseg with h | h
        · subst h
          have := ih seg0 (by simp)
          simp [this]; exact fun h => hc h.symm
        · exact ih seg (by simp [h])

theorem pop_split_no_sep (sep : Char) (s seg : Str) (h : pop (split sep s) = some seg) :
    sep ∉ seg :=
  split_segments_no_sep sep s seg (List.mem_of_getLast?_eq_some h)

theorem filePath_has_slash (code name : Str) : '/' ∈ filePath code name := by
  simp [filePath]

/-- The key `getFile` hands to the storage delete is never a key under which
`uploadFile` writes. -/
theorem pop_split_ne_filePath (url code name : Str) :
    pop (split '/' url) ≠ some (filePath code name) :=
  fun h => pop_split_no_sep '/' url _ h (filePath_has_slash code name)

theorem storageRemove_keeps (ft : Fault) (u : Str) (w : World) (c name : Str)
    (h : w.hasObject (filePath c name) = true) :
    (storageRemove ft [pop (split '/' u)] w).2.hasObject (filePath c name) = true := by
  unfold storageRemove
  cases ft with
  | throws e => exact h
  | error e => exact h
  | none =>
    simp only [World.hasObject, List.any_eq_true, List.mem_filter] at h ⊢
    obtain ⟨o, ho, hk⟩ := h
    refine ⟨o, ⟨ho, ?_⟩, hk⟩
    have hk' : o.1 = filePath c name := by simpa using hk
    have hne := pop_split_ne_filePath u c name
    simp only [List.contains_cons, List.contains_nil, Bool.or_false,
      Bool.not_eq_true', beq_eq_false_iff_ne, ne_eq]
    rw [hk']
    exact fun he => hne he.symm

/-- Whatever the environment does, `getFile` leaves every object `uploadFile`
wrote in the object storage. -/
theorem getFile_keeps_uploaded_object (env : GetEnv) (code : Str) (w : World)
    (c name : Str) (h : w.hasObject (filePath c name) = true) :
    (getFile env code w).world.hasObject (filePath c name) = true := by
  unfold getFile
  rw [tryCatch_world]
  unfold getFileBody
  cases hs : dbSelect env.selectFault code w with
  | throws e => simpa using h
  | error e => cases hc : consoleError e <;> simpa [hc] using h
  | ok data =>
    cases data with
    | none => simpa using h
    | some d =>
      by_cases hexp : d.expire_date < env.now
      · simp only [hexp, if_true]
        cases hu : d.url with
        | none => simpa using h
        | some u =>
          have hkeep := storageRemove_keeps env.removeFault u w c name h
          have hkeep2 : (dbDelete env.deleteFault code
              (storageRemove env.removeFault [pop (split '/' u)] w).2).2.hasObject
              (filePath c name) = true := by
            unfold World.hasObject
            rw [dbDelete_objects]
            exact hkeep
          simp only []
          cases (storageRemove env.removeFault [pop (split '/' u)] w).1 <;>
            cases (dbDelete env.deleteFault code
              (storageRemove env.removeFault [pop (split '/' u)] w).2).1 <;>
            simp [hkeep, hkeep2]
      · simpa [hexp] using h

/-- C2, at the failing input. `uploadFile` of `notes.txt` with the draw `0.5`
writes the object under `uploads/FV-I_notes.txt` and stores a url ending in
that key. A `getFile("FV-I")` after the expiry finds that record, hands the
storage delete the key `FV-I_notes.txt`, which is not the key of the write, and
the object is still in the object storage afterwards, while the record is
gone. -/
theorem getFile_expired_wrong_key :
    (uploadFile exEnv (some exFile) emptyWorld).trace.head?
      = some (Call.storageUpload "uploads/FV-I_notes.txt".toList exFile) ∧
    dbSelect LookupFault.none "FV-I".toList exWorld
      = Reply.ok (some (insertedRecord exEnv exFile)) ∧
    (insertedRecord exEnv exFile).expire_date < 604801001 ∧
    (getFile (getAt 604801001) "FV-I".toList exWorld).outcome = Completion.returned none ∧
    (getFile (getAt 604801001) "FV-I".toList exWorld).trace
      = [Call.select "FV-I".toList,
         Call.storageRemove [some "FV-I_notes.txt".toList],
         Call.delete "FV-I".toList] ∧
    (getFile (getAt 604801001) "FV-I".toList exWorld).world.hasObject
      "uploads/FV-I_notes.txt".toList = true ∧
    (getFile (getAt 604801001) "FV-I".toList exWorld).world.files = [] := by
  decide

/-! ## C1: the shape of the generated code -/

/-- For every draw, the generated code is `FV-` followed by at most six
characters. -/
theorem generateCode_shape (d : Draw) :
    ∃ s : Str, generateCode d = ['F', 'V', '-'] ++ s ∧ s.length ≤ 6 := by
  refine ⟨toUpperCase (substr (toString36 d) 2 6), rfl, ?_⟩
  simp [toUpperCase, substr, List.length_take]

/-- Further draws: the doubles nearest to `1/3` and to `11/36` print as `0.c`
and `0.b` and give codes of one character; the largest double below one and
the smallest positive multiple of `2 ^ -53` give codes of six characters. -/
theorem generateCode_other_draws :
    (Draw.valid ⟨6004799503160661, 54⟩ ∧ toString36 ⟨6004799503160661, 54⟩ = "0.c".toList ∧
      generateCode ⟨6004799503160661, 54⟩ = "FV-C".toList) ∧
    (Draw.valid ⟨1376099886140985, 52⟩ ∧ toString36 ⟨1376099886140985, 52⟩ = "0.b".toList ∧
      generateCode ⟨1376099886140985, 52⟩ = "FV-B".toList) ∧
    (Draw.valid ⟨9007199254740991, 53⟩ ∧
      toString36 ⟨9007199254740991, 53⟩ = "0.zzzzzzzzzza".toList ∧
      matchesPattern (generateCode ⟨9007199254740991, 53⟩) = true) ∧
    (Draw.valid ⟨1, 53⟩ ∧ generateCode ⟨1, 53⟩ = "FV-000000".toList) := by
  decide

/-- C1, at the failing inputs. For the draw `0.5`, `Math.random().toString(36)`
is `"0.i"` and `generateCode` returns `"FV-I"`; for the draw `0` it is `"0"` and
`generateCode` returns `"FV-"`. Neither matches `FV-[A-Z0-9]{6}`. -/
theorem generateCode_short :
    Draw.valid ⟨1, 1⟩ ∧ toString36 ⟨1, 1⟩ = "0.i".toList ∧
    generateCode ⟨1, 1⟩ = "FV-I".toList ∧ matchesPattern (generateCode ⟨1, 1⟩) = false ∧
    Draw.valid ⟨0, 53⟩ ∧ toString36 ⟨0, 53⟩ = "0".toList ∧
    generateCode ⟨0, 53⟩ = "FV-".toList ∧ matchesPattern (generateCode ⟨0, 53⟩) = false := by
  decide

/-! ## Concrete runs -/

/-- C6, at the failing input. With a `getPublicUrl` whose reply has no
`publicUrl` property of its own, `uploadFile` of `notes.txt` succeeds and
inserts a row whose `url` is `null`. A `getFile("FV-I")` after the expiry finds
that row, throws at `data.url.split` of line 92 and returns `null` from the
handler: neither the storage delete nor the metadata delete is issued, and
both stores are as before, the expired record still in the metadata store. The
same holds for the stored row `FV-I` with `url` `null` read at clock `2000`. -/
theorem getFile_expired_null_url :
    ((uploadFile exEnvNoUrl (some exFile) emptyWorld).outcome
        = Completion.returned (some (descriptor exEnvNoUrl exFile)) ∧
      (insertedRecord exEnvNoUrl exFile).url = none ∧
      dbSelect LookupFault.none "FV-I".toList noUrlWorld
        = Reply.ok (some (insertedRecord exEnvNoUrl exFile)) ∧
      (insertedRecord exEnvNoUrl exFile).expire_date < 604801001 ∧
      (getFile (getAt 604801001) "FV-I".toList noUrlWorld).outcome
        = Completion.returned none ∧
      (getFile (getAt 604801001) "FV-I".toList noUrlWorld).trace
        = [Call.select "FV-I".toList] ∧
      (getFile (getAt 604801001) "FV-I".toList noUrlWorld).world = noUrlWorld ∧
      insertedRecord exEnvNoUrl exFile ∈
        (getFile (getAt 604801001) "FV-I".toList noUrlWorld).world.files) ∧
    ((getFile (getAt 2000) "FV-I".toList nullUrlWorld).outcome = Completion.returned none ∧
      (getFile (getAt 2000) "FV-I".toList nullUrlWorld).trace = [Call.select "FV-I".toList] ∧
      (getFile (getAt 2000) "FV-I".toList nullUrlWorld).world = nullUrlWorld) := by
  decide

/-- C3, as stated, fails in three ways. (a) On a store that already holds a
record with the code `FV-I`, the upload of `notes.txt` with the draw `0.5`
writes its object, has its insert refused, rolls back, and a record with that
code is in the store afterwards. (b) When the error of the insert is a value
whose formatting throws, line 53 throws before the delete of line 55: no
storage delete is issued and the object stays. (c) When the storage delete
throws a value whose formatting throws, `uploadFile` does not return `null`:
the handler's `console.error` throws. -/
theorem uploadFile_rollback_fails :
    ((storageUpload exEnvInsertError.uploadFault
          (filePath (generateCode exEnvInsertError.random) exFile.name) exFile
          collisionWorld).1 = Reply.ok () ∧
      exEnvInsertError.insertFault = Fault.error Value.plain ∧
      (uploadFile exEnvInsertError (some exFile) collisionWorld).outcome
        = Completion.returned none ∧
      Call.storageRemove [some "uploads/FV-I_notes.txt".toList] ∈
        (uploadFile exEnvInsertError (some exFile) collisionWorld).trace ∧
      (uploadFile exEnvInsertError (some exFile) collisionWorld).world.files.any
        (fun r => r.code == generateCode exEnvInsertError.random) = true) ∧
    ((uploadFile { exEnv with insertFault := Fault.error evil } (some exFile) emptyWorld).trace
        = [Call.storageUpload "uploads/FV-I_notes.txt".toList exFile,
           Call.getPublicUrl "uploads/FV-I_notes.txt".toList,
           Call.insert (insertedRecord exEnv exFile)] ∧
      (uploadFile { exEnv with insertFault := Fault.error evil } (some exFile)
        emptyWorld).world.hasObject "uploads/FV-I_notes.txt".toList = true) ∧
    (uploadFile { exEnv with insertFault := Fault.error Value.plain,
                             removeFault := Fault.throws evil } (some exFile) emptyWorld).outcome
      = Completion.threw Value.plain := by
  decide

/-- C4, as stated, fails in two ways. The upload of `notes.txt` reads the clock
at `1000` for the expiry and at `1002` for `uploadDate`. (a) A `getFile` of the
returned code at `604801001`, less than seven days after `uploadDate`, with no
fault, finds the record expired and returns `null`. (b) A `getFile` of the
returned code right after the upload, at `1002`, whose lookup reports an
error, returns `null`. -/
theorem upload_then_getFile_null :
    (∀ r ∈ emptyWorld.files, r.code ≠ generateCode exEnv.random) ∧
    (uploadFile exEnv (some exFile) emptyWorld).outcome
      = Completion.returned (some (descriptor exEnv exFile)) ∧
    (descriptor exEnv exFile).uploadDate.instant = 1002 ∧
    604801001 < (descriptor exEnv exFile).uploadDate.instant + 604800000 ∧
    (getFile (getAt 604801001) (descriptor exEnv exFile).code
      (uploadFile exEnv (some exFile) emptyWorld).world).outcome = Completion.returned none ∧
    (getFile (getWith (LookupFault.error Value.plain) 1002) (descriptor exEnv exFile).code
      (uploadFile exEnv (some exFile) emptyWorld).world).outcome = Completion.returned none := by
  refine ⟨?_, ?_⟩
  · intro r hr
    simp [emptyWorld] at hr
  · decide

/-- C7, as stated, fails. No record with the code `FV-ZZZZZZ` is stored, the
lookup throws a value whose formatting throws, and `getFile` does not return
`null`: the handler's `console.error` throws and the promise rejects. -/
theorem getFile_never_issued_rejects :
    (∀ r ∈ emptyWorld.files, r.code ≠ "FV-ZZZZZZ".toList) ∧
    (getFile (getWith (LookupFault.throws evil) 1002) "FV-ZZZZZZ".toList emptyWorld).outcome
      = Completion.threw Value.plain ∧
    (getFile (getWith (LookupFault.throws evil) 1002) "FV-ZZZZZZ".toList emptyWorld).outcome
      ≠ Completion.returned none := by
  refine ⟨?_, ?_⟩
  · intro r hr
    simp [emptyWorld] at hr
  · decide

/-- C8, as stated, fails. The storage write returns an error whose formatting
throws a value whose formatting throws again: line 29 throws, the handler's
`console.error` throws, and `uploadFile` does not return `null`. -/
theorem uploadFile_storage_write_error_rejects :
    (storageUpload (Fault.error evil2)
        (filePath (generateCode exEnv.random) exFile.name) exFile emptyWorld).1
      = Reply.error evil2 ∧
    (uploadFile { exEnv with uploadFault := Fault.error evil2 } (some exFile) emptyWorld).outcome
      = Completion.threw Value.plain ∧
    (uploadFile { exEnv with uploadFault := Fault.error evil2 } (some exFile) emptyWorld).outcome
      ≠ Completion.returned none := by
  decide

/-- C9, as stated, fails. A storage write that throws a value whose formatting
throws makes `uploadFile` throw, so does an input whose `name` getter throws
such a value, and a lookup that throws such a value makes `getFile` throw: the
`console.error` of the `catch` handler is outside the `try` block. -/
theorem uploadFile_getFile_reject :
    (uploadFile { exEnv with uploadFault := Fault.throws evil } (some exFile) emptyWorld).outcome
      = Completion.threw Value.plain ∧
    (uploadFile { exEnv with readError := evil } none emptyWorld).outcome
      = Completion.threw Value.plain ∧
    (getFile (getWith (LookupFault.throws evil) 1002) "FV-I".toList exWorld).outcome
      = Completion.threw Value.plain := by
  decide

/-- Witness for C9: an upload whose storage write throws an `Error`, and a
`getFile` whose lookup throws an `Error`. -/
theorem uploadFile_getFile_return_when_logged_witness :
    UploadEnv.quiet { exEnv with uploadFault := Fault.throws Value.plain } ∧
    (∃ v, (uploadFile { exEnv with uploadFault := Fault.throws Value.plain } (some exFile)
        emptyWorld).outcome = Completion.returned v) ∧
    GetEnv.quiet (getWith (LookupFault.throws Value.plain) 1002) ∧
    (∃ v, (getFile (getWith (LookupFault.throws Value.plain) 1002) "FV-I".toList
        exWorld).outcome = Completion.returned v) :=
  have hq1 : UploadEnv.quiet { exEnv with uploadFault := Fault.throws Value.plain } :=
    ⟨rfl, rfl, fun _ => rfl, rfl, rfl⟩
  have hq2 : GetEnv.quiet (getWith (LookupFault.throws Value.plain) 1002) := ⟨rfl, rfl, rfl⟩
  ⟨hq1, uploadFile_getFile_return_when_logged.1 _ (some exFile) emptyWorld hq1,
   hq2, uploadFile_getFile_return_when_logged.2 _ "FV-I".toList exWorld hq2⟩

/-- Witness for C8: the upload of `notes.txt` with a storage write that reports
an error `console.error` prints. -/
theorem uploadFile_storage_write_error_witness :
    (storageUpload exEnvWriteError.uploadFault
        (filePath (generateCode exEnvWriteError.random) exFile.name) exFile emptyWorld).1
      = Reply.error Value.plain ∧
    Value.plain.loggable = true ∧
    (uploadFile exEnvWriteError (some exFile) emptyWorld).trace
      = [Call.storageUpload (filePath (generateCode exEnvWriteError.random) exFile.name)
          exFile] ∧
    (uploadFile exEnvWriteError (some exFile) emptyWorld).world = emptyWorld ∧
    (uploadFile exEnvWriteError (some exFile) emptyWorld).outcome = Completion.returned none :=
  have h := uploadFile_storage_write_error exEnvWriteError exFile emptyWorld Value.plain
    (by decide)
  ⟨by decide, rfl, h.1, h.2.1, h.2.2 rfl⟩

/-- Witness for C10: a `getFile` that finds a record that has not expired. -/
theorem getFile_frame_witness :
    (∀ r, dbSelect (getAt 1002).selectFault "FV-I".toList exWorld = Reply.ok (some r) →
        ¬ r.expire_date < (getAt 1002).now) ∧
    (getFile (getAt 1002) "FV-I".toList exWorld).trace = [Call.select "FV-I".toList] ∧
    (getFile (getAt 1002) "FV-I".toList exWorld).world = exWorld :=
  have hfound : dbSelect (getAt 1002).selectFault "FV-I".toList exWorld
      = Reply.ok (some (insertedRecord exEnv exFile)) := by decide
  have hyp : ∀ r, dbSelect (getAt 1002).selectFault "FV-I".toList exWorld = Reply.ok (some r) →
      ¬ r.expire_date < (getAt 1002).now := by
    intro r hr
    rw [hfound] at hr
    cases hr
    decide
  ⟨hyp, getFile_frame (getAt 1002) "FV-I".toList exWorld hyp⟩

/-- Witness for C7: a code that was never issued, looked up without fault. -/
theorem getFile_returns_iff_witness :
    (∀ r ∈ emptyWorld.files, r.code ≠ "FV-ZZZZZZ".toList) ∧
    (getAt 1002).selectFault.quiet = true ∧
    (getFile (getAt 1002) "FV-ZZZZZZ".toList emptyWorld).outcome = Completion.returned none :=
  have hyp : ∀ r ∈ emptyWorld.files, r.code ≠ "FV-ZZZZZZ".toList := by
    intro r hr
    simp [emptyWorld] at hr
  ⟨hyp, rfl, ((getFile_returns_iff (getAt 1002) "FV-ZZZZZZ".toList emptyWorld).2 hyp).2 rfl⟩

/-- Witness for C5: the upload of `notes.txt` with clock reads `1000` and `1002`. -/
theorem uploadFile_expireDate_witness :
    (uploadFile exEnv (some exFile) emptyWorld).outcome
      = Completion.returned (some (descriptor exEnv exFile)) ∧
    (descriptor exEnv exFile).expireDate.instant = 604801000 ∧
    (descriptor exEnv exFile).uploadDate.instant = 1002 :=
  have hyp : (uploadFile exEnv (some exFile) emptyWorld).outcome
      = Completion.returned (some (descriptor exEnv exFile)) := by decide
  ⟨hyp, (uploadFile_expireDate exEnv exFile emptyWorld _ hyp).1,
    (uploadFile_expireDate exEnv exFile emptyWorld _ hyp).2.1⟩

/-- Witness for C3: the upload of `notes.txt` with a metadata insert that reports
an error `console.error` prints; the stores end as they started. -/
theorem uploadFile_rollback_witness :
    (storageUpload exEnvInsertError.uploadFault
        (filePath (generateCode exEnvInsertError.random) exFile.name) exFile emptyWorld).1
      = Reply.ok () ∧
    (∀ t, exEnvInsertError.publicUrl
      (filePath (generateCode exEnvInsertError.random) exFile.name) ≠ UrlReply.throws t) ∧
    (dbInsert exEnvInsertError.insertFault (insertedRecord exEnvInsertError exFile)
      (storageUpload exEnvInsertError.uploadFault
        (filePath (generateCode exEnvInsertError.random) exFile.name) exFile emptyWorld).2).1
      = Reply.error Value.plain ∧
    (uploadFile exEnvInsertError (some exFile) emptyWorld).trace
      = [Call.storageUpload "uploads/FV-I_notes.txt".toList exFile,
         Call.getPublicUrl "uploads/FV-I_notes.txt".toList,
         Call.insert (insertedRecord exEnvInsertError exFile),
         Call.storageRemove [some "uploads/FV-I_notes.txt".toList]] ∧
    (uploadFile exEnvInsertError (some exFile) emptyWorld).outcome = Completion.returned none ∧
    (uploadFile exEnvInsertError (some exFile) emptyWorld).world = emptyWorld :=
  have hurl : ∀ t, exEnvInsertError.publicUrl
      (filePath (generateCode exEnvInsertError.random) exFile.name) ≠ UrlReply.throws t := by
    intro t h
    simp [exEnvInsertError, exEnv] at h
  have h := uploadFile_rollback exEnvInsertError exFile emptyWorld Value.plain (by decide) hurl
    (by decide) rfl
  ⟨by decide, hurl, by decide, h.1, h.2.2.1 rfl, (h.2.2.2 (by decide)).2⟩

/-- Witness for C4: the upload of `notes.txt`, then `getFile` of the returned
code at the instant of `uploadDate`. -/
theorem upload_then_getFile_witness :
    (∀ r ∈ emptyWorld.files, r.code ≠ generateCode exEnv.random) ∧
    (uploadFile exEnv (some exFile) emptyWorld).outcome
      = Completion.returned (some (descriptor exEnv exFile)) ∧
    (getAt 1002).now ≤ (descriptor exEnv exFile).expireDate.instant ∧
    ∃ r, (getFile (getAt 1002) (descriptor exEnv exFile).code
            (uploadFile exEnv (some exFile) emptyWorld).world).outcome
          = Completion.returned (some r) ∧
      r = insertedRecord exEnv exFile ∧ r.code = (descriptor exEnv exFile).code ∧
      r.name = exFile.name ∧ r.size = exFile.size :=
  have hyp : ∀ r ∈ emptyWorld.files, r.code ≠ generateCode exEnv.random := by
    intro r hr
    simp [emptyWorld] at hr
  ⟨hyp, by decide, by decide,
    upload_then_getFile exEnv exFile emptyWorld (descriptor exEnv exFile) (getAt 1002) hyp
      (by decide) rfl (by decide)⟩

end Supabase
